import Mathlib

/-!
Shallow embedding of `lingvo/tasks/car/waymo/waymo_ap_metric.py` and proofs
about its breakdown/metric-aggregation logic.

Modelling conventions:
* Python floats are modelled as exact rationals (`ℚ`); a float that may be
  `NaN` is modelled by the two-constructor type `RVal`.
* Fallible Python code (exceptions such as `ValueError`, `IndexError`,
  `ZeroDivisionError`, failing proto enum lookups) is modelled with `Option`:
  `none` means the call raises.
* Python dicts with string keys are modelled as association lists built with
  `dictInsert`, which mirrors dict assignment (overwrite in place if the key
  exists, append otherwise).
* External collaborators (the box loader, the Waymo matcher op, the proto
  enum table for breakdown generator ids) are parameters of the embedded
  functions.
-/

set_option autoImplicit false

namespace WaymoApMetric

/-- A float scalar that is either NaN or a finite value. -/
inductive RVal where
  | nan : RVal
  | fin : ℚ → RVal
deriving DecidableEq

/-- `np.nan_to_num` on one scalar: NaN is replaced by 0, finite values kept. -/
def nanToNum : RVal → ℚ
  | .nan => 0
  | .fin q => q

/-- The values of `label_pb2.Label.Box.Type` used by the module. -/
inductive BoxType where
  | TYPE_2D : BoxType
  | TYPE_3D : BoxType
deriving DecidableEq

/-- The value of `metrics_pb2.MatcherProto.Type` used by the module. -/
inductive MatcherType where
  | TYPE_HUNGARIAN : MatcherType
deriving DecidableEq

/-- The numeric value of `breakdown_pb2.Breakdown.ONE_SHARD` in the fixed
proto enumeration (`UNKNOWN = 0`, `ONE_SHARD = 1`, ...). -/
def ONE_SHARD : Nat := 1

/-- The metadata collaborator consumed by the module: `NumClasses()`,
`ClassNames()`, `IoUThresholds().items()` (a Python dict, hence an ordered
list of key/value pairs with distinct keys), `NumberOfPrecisionRecallPoints()`
and `EvalClassIndices()`. -/
structure Metadata where
  numClasses : Nat
  classNames : List String
  iouOverrides : List (String × ℚ)
  numPRPoints : Nat
  evalClassIndices : List Nat

/-- The `metrics_pb2.Config` fields populated by `_BuildWaymoMetricConfig`.
`Difficulty()` entries carry no data we use, so they are modelled as units. -/
structure MetricsConfig where
  score_cutoffs : List ℚ
  matcher_type : MatcherType
  box_type : BoxType
  iou_thresholds : List ℚ
  breakdown_generator_ids : List Nat
  difficulties : List Unit
deriving DecidableEq

/-- Python `list.index(x)`: index of the first occurrence, `ValueError`
(modelled as `none`) if absent. -/
def pyIndex (xs : List String) (x : String) : Option Nat :=
  match xs with
  | [] => none
  | y :: ys => if y = x then some 0 else (pyIndex ys x).map (· + 1)

/-- Python `xs[i] = v` on a list/repeated proto field: in-range update, or
`IndexError` (modelled as `none`) when `i` is out of range. -/
def pySet (xs : List ℚ) (i : Nat) (v : ℚ) : Option (List ℚ) :=
  if i < xs.length then some (xs.set i v) else none

/-- The override loop of `_BuildWaymoMetricConfig` (lines 58-60):
`for class_name, threshold in metadata.IoUThresholds().items():
   cls_idx = metadata.ClassNames().index(class_name)
   config.iou_thresholds[cls_idx] = threshold`. -/
def applyIouOverrides (classNames : List String) (thr : List ℚ) :
    List (String × ℚ) → Option (List ℚ)
  | [] => some thr
  | (class_name, threshold) :: rest => do
    let cls_idx ← pyIndex classNames class_name
    let thr2 ← pySet thr cls_idx threshold
    applyIouOverrides classNames thr2 rest

/-- The score cutoff list of `_BuildWaymoMetricConfig` (lines 48-50):
`[i * 1.0 / (num_pr_points - 1) for i in range(num_pr_points)]`.
When the range is nonempty and the denominator is zero, Python raises
`ZeroDivisionError` (modelled as `none`); for `num_pr_points = 0` the
comprehension is empty and no division is evaluated. -/
def scoreCutoffs (num_pr_points : Nat) : Option (List ℚ) :=
  (List.range num_pr_points).mapM fun i : ℕ =>
    if num_pr_points - 1 = 0 then none
    else some ((i : ℚ) / ((num_pr_points : ℚ) - 1))

/-- The box type selection of `_BuildWaymoMetricConfig` (lines 52-55):
`TYPE_2D` exactly when the `box_type` string equals `"2d"`, else `TYPE_3D`. -/
def configBoxType (box_type : String) : BoxType :=
  if box_type = "2d" then BoxType.TYPE_2D else BoxType.TYPE_3D

/-- `_BuildWaymoMetricConfig(metadata, box_type, waymo_breakdown_metrics)`.
`genIdOf` is the fixed proto enumeration
`breakdown_pb2.Breakdown.GeneratorId.Value`, an external table; an unknown
breakdown name raises (modelled as `none`). -/
def _BuildWaymoMetricConfig (genIdOf : String → Option Nat) (metadata : Metadata)
    (box_type : String) (waymo_breakdown_metrics : List String) :
    Option MetricsConfig := do
  let cutoffs ← scoreCutoffs metadata.numPRPoints
  let thresholds ← applyIouOverrides metadata.classNames
    (List.replicate 5 ((7 : ℚ) / 10)) metadata.iouOverrides
  let extraIds ← waymo_breakdown_metrics.mapM genIdOf
  some
    { score_cutoffs := cutoffs
      matcher_type := MatcherType.TYPE_HUNGARIAN
      box_type := configBoxType box_type
      iou_thresholds := thresholds
      breakdown_generator_ids := ONE_SHARD :: extraIds
      difficulties := () :: extraIds.map fun _ => () }

/-- The arguments of one `self._LoadBoundingBoxes(...)` call made by
`_GetData` (the loader itself is an external collaborator). -/
structure LoadArgs where
  kind : String
  classid : Nat
  distance : Option Nat
  num_points : Option Nat
  rotation : Option Nat
deriving DecidableEq

/-- The NestedMap returned by the external loader: boxes and image ids, plus
per-box speeds (groundtruth side) or scores (prediction side). -/
structure LoadedBoxes where
  boxes : List (List ℚ)
  imgids : List Int
  speeds : List (List ℚ)
  scores : List ℚ
deriving DecidableEq

/-- The `gt` sub-map of the NestedMap built by `_GetData`. -/
structure GtMap where
  imgid : List Int
  bbox : List (List ℚ)
  speed : List (List ℚ)
deriving DecidableEq

/-- The `pd` sub-map of the NestedMap built by `_GetData`. -/
structure PdMap where
  imgid : List Int
  bbox : List (List ℚ)
  score : List ℚ
deriving DecidableEq

/-- The NestedMap returned by `_GetData` in the populated case. -/
structure FeedData where
  iou_threshold : ℚ
  gt : GtMap
  pd : PdMap
deriving DecidableEq

set_option linter.unusedVariables false in
/-- `WaymoAPMetrics._GetData` (lines 100-146).  `load` is the external
`_LoadBoundingBoxes` collaborator and `iouThresholds` the base class's
`_iou_thresholds` table keyed by class name.  The first component is the
result: `.error` models the failing `assert`, `.ok none` the no-data case.
The second component records the loader calls actually performed, in order,
so that the argument sets passed to the loader can be stated.  The
`difficulty` parameter is accepted but, as in the source, never forwarded to
the loader. -/
def _GetData (load : LoadArgs → Option LoadedBoxes) (iouThresholds : String → ℚ)
    (metadata : Metadata) (classid : Nat) (difficulty : Option String)
    (distance num_points rotation : Option Nat) :
    Except String (Option FeedData) × List LoadArgs :=
  if 0 < classid ∧ classid < metadata.numClasses then
    let gtArgs : LoadArgs :=
      { kind := "groundtruth", classid := classid, distance := distance,
        num_points := num_points, rotation := rotation }
    let pdArgs : LoadArgs :=
      { kind := "prediction", classid := classid, distance := distance,
        num_points := none, rotation := rotation }
    let result : Except String (Option FeedData) :=
      match load gtArgs, load pdArgs with
      | some g, some p =>
        .ok (some
          { iou_threshold := iouThresholds (metadata.classNames.getD classid ""),
            gt := { imgid := g.imgids, bbox := g.boxes, speed := g.speeds },
            pd := { imgid := p.imgids, bbox := p.boxes, score := p.scores } })
      | _, _ => .ok none
    (result, [gtArgs, pdArgs])
  else
    (.error "assert classid > 0 and classid < self.metadata.NumClasses()", [])

/-- Python dict assignment `d[k] = v`: overwrite in place when the key is
present, append the pair otherwise. -/
def dictInsert {α : Type} (d : List (String × α)) (k : String) (v : α) :
    List (String × α) :=
  if d.any (fun p => p.1 = k) then
    d.map fun p => if p.1 = k then (k, v) else p
  else d ++ [(k, v)]

/-- The five outputs of `py_metrics_ops.detection_metrics` relevant here
(the unused fifth output is dropped), indexed by breakdown position: the
external matcher, consumed as an opaque pure function. -/
structure MatcherOut where
  ap : Nat → RVal
  ap_ha : Nat → RVal
  pr : Nat → List (ℚ × ℚ)
  pr_ha : Nat → List (ℚ × ℚ)

/-- `WaymoAPMetrics._BuildMetric` (lines 148-227), restricted to the two
dicts of fetch values; the `feed_dict` plumbing of the tensor machinery
carries no information the claims are about and is omitted.  `matcher` is
the external detection-metrics op as a function of the class id and the fed
data.  The source fills the scalar dict and the curve dict inside a single
loop over `breakdown_names`; as the two dicts are disjoint objects this is
embedded as one fold per dict. -/
def _BuildMetric (breakdown_names : List String) (num_pr_points : Nat)
    (matcher : Nat → FeedData → MatcherOut) (classid : Nat)
    (feed_data : Option FeedData) :
    List (String × RVal) × List (String × List (ℚ × ℚ)) :=
  match feed_data with
  | none =>
    let dummy_scalar := RVal.nan
    let dummy_curve : List (ℚ × ℚ) := List.replicate num_pr_points (0, 0)
    let scalar_metrics :=
      dictInsert (dictInsert [] "ap" dummy_scalar) "ap_ha_weighted" dummy_scalar
    let curve_metrics :=
      dictInsert (dictInsert [] "pr" dummy_curve) "pr_ha_weighted" dummy_curve
    let scalar_metrics := breakdown_names.foldl
      (fun d metric =>
        dictInsert (dictInsert d ("ap_" ++ metric) dummy_scalar)
          ("ap_ha_weighted_" ++ metric) dummy_scalar)
      scalar_metrics
    let curve_metrics := breakdown_names.foldl
      (fun d metric =>
        dictInsert (dictInsert d ("pr_" ++ metric) dummy_curve)
          ("pr_ha_weighted_" ++ metric) dummy_curve)
      curve_metrics
    (scalar_metrics, curve_metrics)
  | some fd =>
    let m := matcher classid fd
    let scalar_metrics :=
      dictInsert (dictInsert [] "ap" (m.ap 0)) "ap_ha_weighted" (m.ap_ha 0)
    let curve_metrics :=
      dictInsert (dictInsert [] "pr" (m.pr 0)) "pr_ha_weighted" (m.pr_ha 0)
    let scalar_metrics := breakdown_names.enum.foldl
      (fun d p =>
        dictInsert (dictInsert d ("ap_" ++ p.2) (m.ap p.1))
          ("ap_ha_weighted_" ++ p.2) (m.ap_ha p.1))
      scalar_metrics
    let curve_metrics := breakdown_names.enum.foldl
      (fun d p =>
        dictInsert (dictInsert d ("pr_" ++ p.2) (m.pr p.1))
          ("pr_ha_weighted_" ++ p.2) (m.pr_ha p.1))
      curve_metrics
    (scalar_metrics, curve_metrics)

/-- The `WaymoAPMetrics.value` property (lines 229-244), as a function of the
aggregate `_average_precisions` table, the breakdown names and the number of
eval classes.  `breakdown_names[0]` on an empty list, the dict lookup on a
missing key, division by a zero `denom_sum` and out-of-range list indexing
inside the loop all raise in Python; each is modelled as `none`.  The loop
`num_sum += np.nan_to_num(ap[breakdown_names[0]][class_index])` over
`class_index in range(num_eval_classes)` sums exactly the first
`num_eval_classes` entries. -/
def value (average_precisions : List (String × List RVal))
    (breakdown_names : List String) (num_eval_classes : Nat) : Option ℚ :=
  match breakdown_names with
  | [] => none
  | b0 :: _ =>
    match average_precisions.find? fun p => p.1 = b0 with
    | none => none
    | some entry =>
      if num_eval_classes = 0 then none
      else if num_eval_classes ≤ entry.2.length then
        some ((((entry.2.take num_eval_classes).map nanToNum).sum) /
          (num_eval_classes : ℚ))
      else none

/-- Python `str.lower()` restricted to the character list of a string. -/
def lowerStr (s : String) : List Char := s.data.map Char.toLower

/-- Python substring containment `needle in hay` on character lists. -/
def inStr (needle hay : List Char) : Bool :=
  (List.range (hay.length + 1)).any fun i => needle.isPrefixOf (hay.drop i)

/-- The (eval-class position `i`, breakdown index `k`) pairs for which the
loop of `WaymoAPMetrics.Summary` (lines 258-283) emits an AP/APH scalar
pair: the loop body runs unless `k > 0 and classname.lower() not in
breakdown_name.lower()`.  Index lookups (`EvalClassIndices()` positions and
`ClassNames()[j]`) are assumed in range, as in the source. -/
def summaryEmits (metadata : Metadata) (breakdown_names : List String) :
    List (Nat × Nat) :=
  (List.range metadata.evalClassIndices.length).flatMap fun i =>
    let j := metadata.evalClassIndices.getD i 0
    let classname := metadata.classNames.getD j ""
    (List.range breakdown_names.length).filterMap fun k =>
      if 0 < k ∧
          inStr (lowerStr classname)
            (lowerStr (breakdown_names.getD k "")) = false then
        none
      else some (i, k)

/-- The (eval-class position `i`, breakdown index `k`) pairs for which
`WaymoBreakdownMetric.GenerateSummaries` (lines 327-372) appends a PR curve
plot, with the same skip rule as `Summary` applied to `p.breakdown_list`. -/
def generateSummariesEmits (metadata : Metadata) (breakdown_list : List String) :
    List (Nat × Nat) :=
  (List.range metadata.evalClassIndices.length).flatMap fun i =>
    let j := metadata.evalClassIndices.getD i 0
    let classname := metadata.classNames.getD j ""
    (List.range breakdown_list.length).filterMap fun k =>
      if 0 < k ∧
          inStr (lowerStr classname)
            (lowerStr (breakdown_list.getD k "")) = false then
        none
      else some (i, k)

/-- Modelled from the spec: `_EvaluateIfNecessary` is defined in
`lingvo/tasks/car/ap_metric.py`, which is not part of the sources here; per
the spec it is a lazy memoized trigger — "invoked exactly once (idempotent:
subsequent calls are no-ops — detect via already-populated state)".  The
state records whether the aggregate maps are populated and how many times
the per-class evaluation pass (the external matcher sweep) has run. -/
structure EvalState where
  evaluated : Bool
  evalCount : Nat
deriving DecidableEq

/-- Modelled from the spec: one call of the memoized evaluation trigger; it
runs the per-class evaluation pass only when the aggregate maps are not yet
populated. -/
def evaluateIfNecessary (s : EvalState) : EvalState :=
  if s.evaluated then s else { evaluated := true, evalCount := s.evalCount + 1 }

/-- The two public entry points that trigger evaluation. -/
inductive MetricOp where
  | valueProp : MetricOp
  | summary : MetricOp
deriving DecidableEq

/-- One public call: `value` triggers once (line 232); `Summary` triggers
once itself (line 248) and then reads `self.value` (line 252), which
triggers again. -/
def metricStep (s : EvalState) : MetricOp → EvalState
  | .valueProp => evaluateIfNecessary s
  | .summary => evaluateIfNecessary (evaluateIfNecessary s)

/-- Run a sequence of public calls against the metric object's state. -/
def runOps (s : EvalState) : List MetricOp → EvalState
  | [] => s
  | op :: ops => runOps (metricStep s op) ops

/-- The state of a freshly constructed metric object. -/
def initialEvalState : EvalState := { evaluated := false, evalCount := 0 }

/-! ### Helper lemmas about the config builder -/

theorem buildConfig_eq_some_iff (genIdOf : String → Option Nat) (metadata : Metadata)
    (box_type : String) (wb : List String) (cfg : MetricsConfig) :
    _BuildWaymoMetricConfig genIdOf metadata box_type wb = some cfg ↔
      ∃ cutoffs thresholds extraIds,
        scoreCutoffs metadata.numPRPoints = some cutoffs ∧
        applyIouOverrides metadata.classNames (List.replicate 5 ((7 : ℚ) / 10))
          metadata.iouOverrides = some thresholds ∧
        wb.mapM genIdOf = some extraIds ∧
        cfg = { score_cutoffs := cutoffs, matcher_type := MatcherType.TYPE_HUNGARIAN,
                box_type := configBoxType box_type, iou_thresholds := thresholds,
                breakdown_generator_ids := ONE_SHARD :: extraIds,
                difficulties := () :: extraIds.map fun _ => () } := by
  simp only [_BuildWaymoMetricConfig, bind, Option.bind_eq_some, Option.some.injEq]
  constructor
  · rintro ⟨c, hc, t, ht, e, he, h⟩
    exact ⟨c, t, e, hc, ht, he, h.symm⟩
  · rintro ⟨c, t, e, hc, ht, he, h⟩
    exact ⟨c, hc, t, ht, e, he, h.symm⟩

theorem mapM_option_length {α β : Type} (f : α → Option β) :
    ∀ (l : List α) (l2 : List β), l.mapM f = some l2 → l2.length = l.length
  | [], l2, h => by
    simp only [List.mapM_nil, pure, Option.some.injEq] at h
    simp [← h]
  | a :: l, l2, h => by
    simp only [List.mapM_cons, bind, Option.bind_eq_some, pure,
      Option.some.injEq] at h
    obtain ⟨b, _, bs, hbs, rfl⟩ := h
    simp [mapM_option_length f l bs hbs]

theorem mapM_some_fun {α β : Type} (g : α → β) :
    ∀ l : List α, l.mapM (fun a => some (g a)) = some (l.map g)
  | [] => rfl
  | a :: l => by
    rw [List.mapM_cons, mapM_some_fun g l]
    rfl

theorem scoreCutoffs_of_two_le (p : Nat) (h : 2 ≤ p) :
    scoreCutoffs p = some ((List.range p).map fun i : ℕ => (i : ℚ) / ((p : ℚ) - 1)) := by
  have hp : ¬ (p - 1 = 0) := by omega
  simp only [scoreCutoffs, hp, if_false]
  exact mapM_some_fun _ _

theorem scoreCutoffs_one : scoreCutoffs 1 = none := rfl

theorem scoreCutoffs_zero : scoreCutoffs 0 = some [] := rfl

theorem pyIndex_getElem? (x : String) :
    ∀ (xs : List String) (i : Nat), pyIndex xs x = some i → xs[i]? = some x := by
  intro xs
  induction xs with
  | nil => intro i h; simp [pyIndex] at h
  | cons y ys ih =>
    intro i h
    by_cases hy : y = x
    · simp only [pyIndex, hy, if_true, Option.some.injEq] at h
      subst h
      simp [hy]
    · simp only [pyIndex, hy, if_false, Option.map_eq_some'] at h
      obtain ⟨j, hj, rfl⟩ := h
      simpa using ih j hj

theorem pySet_eq_some_iff (xs : List ℚ) (i : Nat) (v : ℚ) (out : List ℚ) :
    pySet xs i v = some out ↔ i < xs.length ∧ out = xs.set i v := by
  unfold pySet
  split <;> simp_all [eq_comm]

theorem applyIouOverrides_length (cn : List String) :
    ∀ (ovs : List (String × ℚ)) (thr out : List ℚ),
      applyIouOverrides cn thr ovs = some out → out.length = thr.length
  | [], thr, out, h => by
    simp only [applyIouOverrides, Option.some.injEq] at h
    simp [← h]
  | (name, v) :: rest, thr, out, h => by
    simp only [applyIouOverrides, bind, Option.bind_eq_some] at h
    obtain ⟨idx, _, thr2, hset, hrest⟩ := h
    obtain ⟨hlt, rfl⟩ := (pySet_eq_some_iff _ _ _ _).mp hset
    simpa using applyIouOverrides_length cn rest _ out hrest

theorem applyIouOverrides_untouched (cn : List String) :
    ∀ (ovs : List (String × ℚ)) (thr out : List ℚ) (i : Nat),
      applyIouOverrides cn thr ovs = some out →
      (∀ kv ∈ ovs, pyIndex cn kv.1 ≠ some i) →
      out[i]? = thr[i]?
  | [], thr, out, i, h, _ => by
    simp only [applyIouOverrides, Option.some.injEq] at h
    simp [← h]
  | (name, v) :: rest, thr, out, i, h, hnone => by
    simp only [applyIouOverrides, bind, Option.bind_eq_some] at h
    obtain ⟨idx, hidx, thr2, hset, hrest⟩ := h
    obtain ⟨hlt, rfl⟩ := (pySet_eq_some_iff _ _ _ _).mp hset
    have hne : idx ≠ i := by
      intro hcontra
      exact hnone (name, v) (by simp) (hcontra ▸ hidx)
    have := applyIouOverrides_untouched cn rest _ out i hrest
      (fun kv hkv => hnone kv (List.mem_cons_of_mem _ hkv))
    rw [this, List.getElem?_set_ne hne]

theorem applyIouOverrides_written (cn : List String) :
    ∀ (ovs : List (String × ℚ)) (thr out : List ℚ) (name : String) (v : ℚ) (i : Nat),
      (ovs.map Prod.fst).Nodup →
      (name, v) ∈ ovs → pyIndex cn name = some i →
      applyIouOverrides cn thr ovs = some out →
      out[i]? = some v
  | [], _, _, _, _, _, _, hmem, _, _ => by simp at hmem
  | (k, w) :: rest, thr, out, name, v, i, hnd, hmem, hpi, h => by
    simp only [applyIouOverrides, bind, Option.bind_eq_some] at h
    obtain ⟨idx, hidx, thr2, hset, hrest⟩ := h
    obtain ⟨hlt, rfl⟩ := (pySet_eq_some_iff _ _ _ _).mp hset
    rcases List.mem_cons.mp hmem with hhead | htail
    · obtain ⟨rfl, rfl⟩ := Prod.mk.injEq .. ▸ hhead
      have hik : idx = i := by rw [hpi] at hidx; simpa using hidx.symm
      subst hik
      have hout : out[idx]? = (thr.set idx v)[idx]? := by
        refine applyIouOverrides_untouched cn rest _ out idx hrest ?_
        intro kv hkv hcontra
        have h1 : cn[idx]? = some kv.1 := pyIndex_getElem? kv.1 cn idx hcontra
        have h2 : cn[idx]? = some name := pyIndex_getElem? name cn idx hpi
        have : kv.1 = name := by rw [h1] at h2; simpa using h2
        have hkeys : name ∈ rest.map Prod.fst := this ▸ List.mem_map_of_mem Prod.fst hkv
        have := (List.nodup_cons.mp hnd).1
        exact this hkeys
      rw [hout, List.getElem?_set_self']
      simp [hlt]
    · exact applyIouOverrides_written cn rest _ out name v i
        (List.nodup_cons.mp hnd).2 htail hpi hrest

/-! ### Concrete fixtures used by witnesses and counterexamples -/

/-- An enum table that resolves no extra breakdown name (never consulted when
the extra breakdown list is empty). -/
def genIdNone : String → Option Nat := fun _ => none

/-- An enum table resolving only the name `"RANGE"`. -/
def genIdRange : String → Option Nat := fun s => if s = "RANGE" then some 3 else none

/-- Waymo-like metadata with 5 classes, 3 PR points and no overrides. -/
def mdW : Metadata :=
  { numClasses := 5, classNames := ["unknown", "vehicle", "pedestrian", "sign", "cyclist"],
    iouOverrides := [], numPRPoints := 3, evalClassIndices := [1, 2] }

/-- The config built from `mdW` with box type `"3d"` and no extra breakdowns. -/
def cfgW : MetricsConfig :=
  { score_cutoffs := [0, 1/2, 1], matcher_type := MatcherType.TYPE_HUNGARIAN,
    box_type := BoxType.TYPE_3D, iou_thresholds := List.replicate 5 ((7 : ℚ) / 10),
    breakdown_generator_ids := [1], difficulties := [()] }

theorem scoreCutoffs_two : scoreCutoffs 2 = some [0, 1] := by
  rw [scoreCutoffs_of_two_le 2 (by norm_num)]
  norm_num [List.range_succ]

theorem scoreCutoffs_three : scoreCutoffs 3 = some [0, 1/2, 1] := by
  rw [scoreCutoffs_of_two_le 3 (by norm_num)]
  norm_num [List.range_succ]

theorem build_mdW_3d : _BuildWaymoMetricConfig genIdNone mdW "3d" [] = some cfgW :=
  (buildConfig_eq_some_iff ..).mpr
    ⟨[0, 1/2, 1], List.replicate 5 ((7 : ℚ) / 10), [], scoreCutoffs_three, rfl, rfl, rfl⟩

theorem build_mdW_2D : _BuildWaymoMetricConfig genIdNone mdW "2D" [] = some cfgW :=
  (buildConfig_eq_some_iff ..).mpr
    ⟨[0, 1/2, 1], List.replicate 5 ((7 : ℚ) / 10), [], scoreCutoffs_three, rfl, rfl, rfl⟩

/-- The config built from `mdW` with the extra breakdown list `["RANGE"]`. -/
def cfgRange : MetricsConfig :=
  { score_cutoffs := [0, 1/2, 1], matcher_type := MatcherType.TYPE_HUNGARIAN,
    box_type := BoxType.TYPE_3D, iou_thresholds := List.replicate 5 ((7 : ℚ) / 10),
    breakdown_generator_ids := [1, 3], difficulties := [(), ()] }

theorem build_mdW_range :
    _BuildWaymoMetricConfig genIdRange mdW "3d" ["RANGE"] = some cfgRange :=
  (buildConfig_eq_some_iff ..).mpr
    ⟨[0, 1/2, 1], List.replicate 5 ((7 : ℚ) / 10), [3], scoreCutoffs_three, rfl, rfl, rfl⟩

/-! ### C10: box type selection -/

/-- C10: the config builder sets `box_type` to `TYPE_2D` if and only if the
`box_type` parameter is exactly the string `"2d"`; every other value
(including `"2D"`, `"3d"`, `"3D"` or any invalid string) silently produces
`TYPE_3D` with no validation error. -/
theorem config_box_type_iff (genIdOf : String → Option Nat) (metadata : Metadata)
    (box_type : String) (wb : List String) (cfg : MetricsConfig)
    (h : _BuildWaymoMetricConfig genIdOf metadata box_type wb = some cfg) :
    (cfg.box_type = BoxType.TYPE_2D ↔ box_type = "2d") ∧
    (box_type ≠ "2d" → cfg.box_type = BoxType.TYPE_3D) := by
  obtain ⟨c, t, e, _, _, _, rfl⟩ := (buildConfig_eq_some_iff ..).mp h
  refine ⟨?_, fun hne => by simp [configBoxType, hne]⟩
  unfold configBoxType
  split <;> simp_all

/-- Witness for C10 at the concrete uppercase string `"2D"`: the build
silently yields `TYPE_3D`. -/
theorem config_box_type_iff_witness : cfgW.box_type = BoxType.TYPE_3D :=
  (config_box_type_iff genIdNone mdW "2D" [] cfgW build_mdW_2D).2 (by decide)

/-! ### C6: breakdown generator ids and difficulties -/

/-- C6: for every list of extra breakdown names, the built config satisfies
`breakdown_generator_ids[0] == ONE_SHARD` and
`len(breakdown_generator_ids) == len(difficulties) == 1 + len(extra)`,
with one default difficulty entry per breakdown generator id. -/
theorem breakdown_ids_parallel (genIdOf : String → Option Nat) (metadata : Metadata)
    (box_type : String) (wb : List String) (cfg : MetricsConfig)
    (h : _BuildWaymoMetricConfig genIdOf metadata box_type wb = some cfg) :
    cfg.breakdown_generator_ids.head? = some ONE_SHARD ∧
    cfg.breakdown_generator_ids.length = 1 + wb.length ∧
    cfg.difficulties.length = cfg.breakdown_generator_ids.length := by
  obtain ⟨c, t, e, _, _, he, rfl⟩ := (buildConfig_eq_some_iff ..).mp h
  have hlen := mapM_option_length genIdOf wb e he
  refine ⟨rfl, ?_, ?_⟩
  · simp only [List.length_cons, hlen]
    omega
  · simp only [List.length_cons, List.length_map]

/-- Witness for C6 with one extra breakdown name `"RANGE"`. -/
theorem breakdown_ids_parallel_witness :
    cfgRange.breakdown_generator_ids.head? = some ONE_SHARD ∧
    cfgRange.breakdown_generator_ids.length = 1 + ["RANGE"].length ∧
    cfgRange.difficulties.length = cfgRange.breakdown_generator_ids.length :=
  breakdown_ids_parallel genIdRange mdW "3d" ["RANGE"] cfgRange build_mdW_range

/-! ### C5: score cutoffs (corrected: P = 0 does not fail) -/

/-- C5 (amended): for every P ≥ 2 the built config's `score_cutoffs` has
length P, element i equals `i/(P-1)`, is sorted strictly ascending with
first element 0 and last element 1; building with P = 1 fails
(ZeroDivisionError), but building with P = 0 succeeds with an empty
`score_cutoffs` (the comprehension is empty, so no division is evaluated). -/
theorem score_cutoffs_spec (genIdOf : String → Option Nat) (metadata : Metadata)
    (box_type : String) (wb : List String) :
    (∀ cfg, _BuildWaymoMetricConfig genIdOf metadata box_type wb = some cfg →
      2 ≤ metadata.numPRPoints →
      cfg.score_cutoffs.length = metadata.numPRPoints ∧
      (∀ i, i < metadata.numPRPoints →
        cfg.score_cutoffs[i]? = some ((i : ℚ) / ((metadata.numPRPoints : ℚ) - 1))) ∧
      cfg.score_cutoffs.Pairwise (· < ·) ∧
      cfg.score_cutoffs[0]? = some 0 ∧
      cfg.score_cutoffs[metadata.numPRPoints - 1]? = some 1) ∧
    (metadata.numPRPoints = 1 →
      _BuildWaymoMetricConfig genIdOf metadata box_type wb = none) ∧
    (metadata.numPRPoints = 0 →
      ∀ cfg, _BuildWaymoMetricConfig genIdOf metadata box_type wb = some cfg →
        cfg.score_cutoffs = []) := by
  refine ⟨?_, ?_, ?_⟩
  · intro cfg h h2
    obtain ⟨c, t, e, hc, _, _, rfl⟩ := (buildConfig_eq_some_iff ..).mp h
    rw [scoreCutoffs_of_two_le _ h2] at hc
    have hc2 : c = (List.range metadata.numPRPoints).map
        fun i : ℕ => (i : ℚ) / ((metadata.numPRPoints : ℚ) - 1) := by
      simpa using hc.symm
    subst hc2
    have hden : (0 : ℚ) < (metadata.numPRPoints : ℚ) - 1 := by
      have : (2 : ℚ) ≤ (metadata.numPRPoints : ℚ) := by exact_mod_cast h2
      linarith
    refine ⟨by simp, ?_, ?_, ?_, ?_⟩
    · intro i hi
      simp [List.getElem?_range hi]
    · refine List.Pairwise.map _ ?_ (List.pairwise_lt_range metadata.numPRPoints)
      intro a b hab
      exact (div_lt_div_iff_of_pos_right hden).mpr (by exact_mod_cast hab)
    · have h0 : 0 < metadata.numPRPoints := by omega
      simp [List.getElem?_range h0]
    · have hlast : metadata.numPRPoints - 1 < metadata.numPRPoints := by omega
      rw [List.getElem?_map, List.getElem?_range hlast]
      have hcast : ((metadata.numPRPoints - 1 : Nat) : ℚ) =
          (metadata.numPRPoints : ℚ) - 1 := by
        push_cast [Nat.cast_sub (by omega : 1 ≤ metadata.numPRPoints)]
        ring
      simp [hcast, div_self (ne_of_gt hden)]
  · intro h1
    simp [_BuildWaymoMetricConfig, h1, scoreCutoffs_one, bind]
  · intro h0 cfg h
    obtain ⟨c, t, e, hc, _, _, rfl⟩ := (buildConfig_eq_some_iff ..).mp h
    rw [h0, scoreCutoffs_zero] at hc
    simpa using hc.symm

/-- Metadata whose number of PR points is 0. -/
def mdP0 : Metadata :=
  { numClasses := 5, classNames := ["unknown", "vehicle", "pedestrian", "sign", "cyclist"],
    iouOverrides := [], numPRPoints := 0, evalClassIndices := [] }

/-- The config built from `mdP0`: the build does not fail. -/
def cfgP0 : MetricsConfig :=
  { score_cutoffs := [], matcher_type := MatcherType.TYPE_HUNGARIAN,
    box_type := BoxType.TYPE_3D, iou_thresholds := List.replicate 5 ((7 : ℚ) / 10),
    breakdown_generator_ids := [1], difficulties := [()] }

/-- Counterexample to C5 as stated: with `P = 0 < 2` the build does NOT fail;
it succeeds and produces an empty `score_cutoffs` sequence (the Python list
comprehension over `range(0)` never evaluates the division). -/
theorem score_cutoffs_cex :
    mdP0.numPRPoints < 2 ∧
    _BuildWaymoMetricConfig genIdNone mdP0 "3d" [] = some cfgP0 ∧
    cfgP0.score_cutoffs = [] :=
  ⟨by decide,
   (buildConfig_eq_some_iff ..).mpr
     ⟨[], List.replicate 5 ((7 : ℚ) / 10), [], scoreCutoffs_zero, rfl, rfl, rfl⟩,
   rfl⟩

/-- Witness for C5 (amended) at `P = 3`. -/
theorem score_cutoffs_witness :
    cfgW.score_cutoffs.length = 3 ∧
    cfgW.score_cutoffs[1]? = some ((1 : ℚ) / ((3 : ℚ) - 1)) ∧
    cfgW.score_cutoffs.Pairwise (· < ·) ∧
    cfgW.score_cutoffs[0]? = some 0 ∧
    cfgW.score_cutoffs[2]? = some 1 := by
  have h := (score_cutoffs_spec genIdNone mdW "3d" []).1 cfgW build_mdW_3d (by decide)
  exact ⟨h.1, by simpa using h.2.1 1 (by decide), h.2.2.1, h.2.2.2.1, h.2.2.2.2⟩

/-! ### C4: IoU thresholds (corrected: exactly 5 default entries, not
one per class) -/

/-- C4 (amended): the built config always carries exactly 5 IoU threshold
entries (the hardcoded `[0.7] * 5` default, the Waymo label-set size).  For
every class index `< 5` whose name is not in the override mapping the
threshold is 0.7, and for every overridden class name the entry at the
class's index equals the override value; classes at index ≥ 5 have no
threshold entry at all (so the property does not hold "regardless of the
number of classes"). -/
theorem iou_thresholds_spec (genIdOf : String → Option Nat) (metadata : Metadata)
    (box_type : String) (wb : List String) (cfg : MetricsConfig)
    (h : _BuildWaymoMetricConfig genIdOf metadata box_type wb = some cfg)
    (hnd : (metadata.iouOverrides.map Prod.fst).Nodup) :
    cfg.iou_thresholds.length = 5 ∧
    (∀ i name, metadata.classNames[i]? = some name →
      name ∉ metadata.iouOverrides.map Prod.fst → i < 5 →
      cfg.iou_thresholds[i]? = some ((7 : ℚ) / 10)) ∧
    (∀ name v i, (name, v) ∈ metadata.iouOverrides →
      pyIndex metadata.classNames name = some i →
      cfg.iou_thresholds[i]? = some v) := by
  obtain ⟨c, t, e, _, ht, _, rfl⟩ := (buildConfig_eq_some_iff ..).mp h
  refine ⟨?_, ?_, ?_⟩
  · simpa using applyIouOverrides_length _ _ _ _ ht
  · intro i name hname hnotin hlt
    have huntouched : t[i]? = (List.replicate 5 ((7 : ℚ) / 10))[i]? := by
      refine applyIouOverrides_untouched _ _ _ _ i ht ?_
      intro kv hkv hcontra
      have h1 : metadata.classNames[i]? = some kv.1 :=
        pyIndex_getElem? kv.1 metadata.classNames i hcontra
      have : kv.1 = name := by rw [hname] at h1; simpa using h1.symm
      exact hnotin (this ▸ List.mem_map_of_mem Prod.fst hkv)
    simpa [huntouched] using List.getElem?_replicate_of_lt hlt
  · intro name v i hmem hpi
    exact applyIouOverrides_written _ _ _ _ name v i hnd hmem hpi ht

/-- Metadata with six class names and no overrides. -/
def mdSix : Metadata :=
  { numClasses := 6,
    classNames := ["unknown", "vehicle", "pedestrian", "sign", "cyclist", "extra"],
    iouOverrides := [], numPRPoints := 2, evalClassIndices := [] }

/-- The config built from `mdSix`. -/
def cfgSix : MetricsConfig :=
  { score_cutoffs := [0, 1], matcher_type := MatcherType.TYPE_HUNGARIAN,
    box_type := BoxType.TYPE_3D, iou_thresholds := List.replicate 5 ((7 : ℚ) / 10),
    breakdown_generator_ids := [1], difficulties := [()] }

/-- Counterexample to C4 as stated: with six classes, the class at index 5
(name `"extra"`, not overridden) has NO IoU threshold entry in the built
config — the default list is hardcoded to five 0.7 entries, so the claimed
"0.7 for every class ... regardless of the number of classes" fails. -/
theorem iou_thresholds_cex :
    _BuildWaymoMetricConfig genIdNone mdSix "3d" [] = some cfgSix ∧
    mdSix.classNames[5]? = some "extra" ∧
    "extra" ∉ mdSix.iouOverrides.map Prod.fst ∧
    cfgSix.iou_thresholds.length = 5 ∧
    cfgSix.iou_thresholds[5]? = none :=
  ⟨(buildConfig_eq_some_iff ..).mpr
     ⟨[0, 1], List.replicate 5 ((7 : ℚ) / 10), [], scoreCutoffs_two, rfl, rfl, rfl⟩,
   rfl, by simp [mdSix], rfl, rfl⟩

/-- Metadata with 5 classes and one IoU override (`vehicle ↦ 4/5`). -/
def mdOv : Metadata :=
  { numClasses := 5, classNames := ["unknown", "vehicle", "pedestrian", "sign", "cyclist"],
    iouOverrides := [("vehicle", (4 : ℚ) / 5)], numPRPoints := 2, evalClassIndices := [] }

/-- The config built from `mdOv`. -/
def cfgOv : MetricsConfig :=
  { score_cutoffs := [0, 1], matcher_type := MatcherType.TYPE_HUNGARIAN,
    box_type := BoxType.TYPE_3D,
    iou_thresholds := [7/10, 4/5, 7/10, 7/10, 7/10],
    breakdown_generator_ids := [1], difficulties := [()] }

theorem build_mdOv : _BuildWaymoMetricConfig genIdNone mdOv "3d" [] = some cfgOv :=
  (buildConfig_eq_some_iff ..).mpr
    ⟨[0, 1], [7/10, 4/5, 7/10, 7/10, 7/10], [], scoreCutoffs_two, rfl, rfl, rfl⟩

/-- Witness for C4 (amended): with the `vehicle ↦ 4/5` override, class
`pedestrian` (index 2) keeps the 0.7 default and class `vehicle` (index 1)
gets the override value. -/
theorem iou_thresholds_witness :
    cfgOv.iou_thresholds.length = 5 ∧
    cfgOv.iou_thresholds[2]? = some ((7 : ℚ) / 10) ∧
    cfgOv.iou_thresholds[1]? = some ((4 : ℚ) / 5) := by
  have h := iou_thresholds_spec genIdNone mdOv "3d" [] cfgOv build_mdOv
    (by simp [mdOv])
  refine ⟨h.1, ?_, ?_⟩
  · exact h.2.1 2 "pedestrian" rfl (by simp [mdOv]) (by decide)
  · exact h.2.2 "vehicle" ((4 : ℚ) / 5) 1 (List.mem_singleton.mpr rfl) rfl

/-! ### C7 and C8: `_GetData` -/

/-- C7: `_GetData` always performs exactly two loader calls: the
ground-truth load with the caller's `num_points`, and the prediction load
with `num_points = None` even when the caller supplied one; both calls use
the same `distance` and `rotation` filters. -/
theorem getdata_prediction_no_num_points (load : LoadArgs → Option LoadedBoxes)
    (iouThresholds : String → ℚ) (metadata : Metadata) (classid : Nat)
    (difficulty : Option String) (distance num_points rotation : Option Nat)
    (h1 : 0 < classid) (h2 : classid < metadata.numClasses) :
    (_GetData load iouThresholds metadata classid difficulty distance
        num_points rotation).2 =
      [{ kind := "groundtruth", classid := classid, distance := distance,
         num_points := num_points, rotation := rotation },
       { kind := "prediction", classid := classid, distance := distance,
         num_points := none, rotation := rotation }] ∧
    (_GetData load iouThresholds metadata classid difficulty distance
        num_points rotation).2.map LoadArgs.num_points = [num_points, none] ∧
    (_GetData load iouThresholds metadata classid difficulty distance
        num_points rotation).2.map LoadArgs.distance = [distance, distance] ∧
    (_GetData load iouThresholds metadata classid difficulty distance
        num_points rotation).2.map LoadArgs.rotation = [rotation, rotation] := by
  refine ⟨?_, ?_, ?_, ?_⟩ <;> simp only [_GetData, if_pos (And.intro h1 h2)] <;> rfl

/-- A loader that never finds boxes. -/
def loadNone : LoadArgs → Option LoadedBoxes := fun _ => none

/-- A constant IoU threshold table. -/
def iouConst : String → ℚ := fun _ => (7 : ℚ) / 10

/-- Witness for C7 at concrete arguments: the caller passes
`num_points = some 7`, yet the prediction-side call carries `none`. -/
theorem getdata_prediction_no_num_points_witness :
    (_GetData loadNone iouConst mdW 1 none (some 2) (some 7) (some 3)).2.map
        LoadArgs.num_points = [some 7, none] ∧
    (_GetData loadNone iouConst mdW 1 none (some 2) (some 7) (some 3)).2.map
        LoadArgs.distance = [some 2, some 2] :=
  ⟨(getdata_prediction_no_num_points loadNone iouConst mdW 1 none (some 2)
      (some 7) (some 3) (by decide) (by decide)).2.1,
   (getdata_prediction_no_num_points loadNone iouConst mdW 1 none (some 2)
      (some 7) (some 3) (by decide) (by decide)).2.2.1⟩

/-- C8: under the precondition `0 < classid < NumClasses()`, `_GetData`
returns `None` iff the ground-truth lookup or the prediction lookup is
empty; otherwise it returns the populated NestedMap with the class's IoU
threshold, the ground-truth imgid/bbox/speed arrays and the prediction
imgid/bbox/score arrays.  Outside the precondition the assertion fails. -/
theorem getdata_result_spec (load : LoadArgs → Option LoadedBoxes)
    (iouThresholds : String → ℚ) (metadata : Metadata) (classid : Nat)
    (difficulty : Option String) (distance num_points rotation : Option Nat) :
    (0 < classid ∧ classid < metadata.numClasses →
      ((_GetData load iouThresholds metadata classid difficulty distance
          num_points rotation).1 = Except.ok none ↔
        load { kind := "groundtruth", classid := classid, distance := distance,
               num_points := num_points, rotation := rotation } = none ∨
        load { kind := "prediction", classid := classid, distance := distance,
               num_points := none, rotation := rotation } = none) ∧
      (∀ g p,
        load { kind := "groundtruth", classid := classid, distance := distance,
               num_points := num_points, rotation := rotation } = some g →
        load { kind := "prediction", classid := classid, distance := distance,
               num_points := none, rotation := rotation } = some p →
        (_GetData load iouThresholds metadata classid difficulty distance
            num_points rotation).1 = Except.ok (some
          { iou_threshold := iouThresholds (metadata.classNames.getD classid ""),
            gt := { imgid := g.imgids, bbox := g.boxes, speed := g.speeds },
            pd := { imgid := p.imgids, bbox := p.boxes, score := p.scores } }))) ∧
    (¬ (0 < classid ∧ classid < metadata.numClasses) →
      (_GetData load iouThresholds metadata classid difficulty distance
          num_points rotation).1 =
        Except.error "assert classid > 0 and classid < self.metadata.NumClasses()") := by
  constructor
  · intro hpre
    constructor
    · simp only [_GetData, if_pos hpre]
      cases hg : load ⟨"groundtruth", classid, distance, num_points, rotation⟩ <;>
        cases hp : load ⟨"prediction", classid, distance, none, rotation⟩ <;>
          simp [hg, hp]
    · intro g p hg hp
      simp only [_GetData, if_pos hpre, hg, hp]
  · intro hpre
    simp only [_GetData, if_neg hpre]

/-- A loader with nonempty ground truth and predictions. -/
def loadFull : LoadArgs → Option LoadedBoxes := fun _ =>
  some { boxes := [[1, 2, 3, 4, 5, 6, 7]], imgids := [0],
         speeds := [[0, 0]], scores := [1/2] }

/-- Witness for C8: with an empty loader `_GetData` returns `None`; with a
populated loader it returns the populated NestedMap; with `classid = 0` the
assertion fails. -/
theorem getdata_result_spec_witness :
    (_GetData loadNone iouConst mdW 1 none none none none).1 = Except.ok none ∧
    (_GetData loadFull iouConst mdW 1 none none none none).1 = Except.ok (some
      { iou_threshold := iouConst "vehicle",
        gt := { imgid := [0], bbox := [[1, 2, 3, 4, 5, 6, 7]], speed := [[0, 0]] },
        pd := { imgid := [0], bbox := [[1, 2, 3, 4, 5, 6, 7]], score := [1/2] } }) ∧
    (_GetData loadFull iouConst mdW 0 none none none none).1 =
      Except.error "assert classid > 0 and classid < self.metadata.NumClasses()" :=
  ⟨((getdata_result_spec loadNone iouConst mdW 1 none none none none).1
      (by decide)).1.mpr (Or.inl rfl),
   ((getdata_result_spec loadFull iouConst mdW 1 none none none none).1
      (by decide)).2 _ _ rfl rfl,
   (getdata_result_spec loadFull iouConst mdW 0 none none none none).2 (by decide)⟩

/-! ### C9: memoized evaluation (spec-modelled) -/

theorem runOps_of_evaluated (ops : List MetricOp) :
    ∀ s : EvalState, s.evaluated = true → runOps s ops = s := by
  induction ops with
  | nil => intro s _; rfl
  | cons op rest ih =>
    intro s hs
    have hstep : metricStep s op = s := by
      cases op <;> simp [metricStep, evaluateIfNecessary, hs]
    rw [runOps, hstep]
    exact ih s hs

/-- C9: across any sequence of calls to the `value` property and `Summary`,
the underlying per-class evaluation pass runs at most once per
metric-object lifetime, and after the first public call the state is
exactly "populated with one evaluation" — every subsequent trigger is a
no-op reusing the populated aggregate maps.  (`_EvaluateIfNecessary` is
modelled from the spec; it lives outside these sources.) -/
theorem evaluation_at_most_once (ops : List MetricOp) (op : MetricOp) :
    (runOps initialEvalState ops).evalCount ≤ 1 ∧
    runOps initialEvalState (op :: ops) = { evaluated := true, evalCount := 1 } := by
  have hfirst : metricStep initialEvalState op = { evaluated := true, evalCount := 1 } := by
    cases op <;> rfl
  have htail : runOps { evaluated := true, evalCount := 1 } ops =
      { evaluated := true, evalCount := 1 } :=
    runOps_of_evaluated ops _ rfl
  constructor
  · cases ops with
    | nil => exact Nat.zero_le 1
    | cons op2 rest =>
      have hone : metricStep initialEvalState op2 =
          { evaluated := true, evalCount := 1 } := by cases op2 <;> rfl
      rw [runOps, hone, runOps_of_evaluated rest _ rfl]
  · rw [runOps, hfirst, htail]

/-! ### C1: the `value` property -/

/-- C1: `WaymoAPMetrics.value` returns the mean of
`average_precisions[breakdown_names[0]][i]` over all eval-class positions,
with each NaN entry replaced by 0 before summing, and the denominator equal
to the number of eval classes. -/
theorem value_is_nan_to_num_mean (average_precisions : List (String × List RVal))
    (b0 : String) (rest : List String) (aps : List RVal) (n : Nat)
    (hfind : average_precisions.find? (fun p => p.1 = b0) = some (b0, aps))
    (hlen : aps.length = n) (hn : 0 < n) :
    value average_precisions (b0 :: rest) n =
      some ((aps.map nanToNum).sum / (n : ℚ)) := by
  subst hlen
  simp only [value, hfind]
  simp [Nat.pos_iff_ne_zero.mp hn]

/-- The aggregate table of the C1 example: per-class APs `[0.8, NaN, 0.6]`
under the overall breakdown name. -/
def apTableW : List (String × List RVal) :=
  [("ONE_SHARD", [RVal.fin (4/5), RVal.nan, RVal.fin (3/5)])]

/-- Witness for C1: eval classes with APs `[0.8, NaN, 0.6]` yield the value
`(0.8 + 0 + 0.6) / 3`. -/
theorem value_is_nan_to_num_mean_witness :
    value apTableW ["ONE_SHARD"] 3 = some (((4 : ℚ)/5 + 0 + 3/5) / 3) := by
  have h := value_is_nan_to_num_mean apTableW "ONE_SHARD" []
    [RVal.fin (4/5), RVal.nan, RVal.fin (3/5)] 3 rfl rfl (by decide)
  rw [h]
  simp [nanToNum]

/-! ### C3: the summary skip rule -/

theorem generateSummariesEmits_eq_summaryEmits :
    generateSummariesEmits = summaryEmits := rfl

theorem mem_summaryEmits_iff (metadata : Metadata) (bnames : List String) (i k : Nat) :
    (i, k) ∈ summaryEmits metadata bnames ↔
      i < metadata.evalClassIndices.length ∧ k < bnames.length ∧
      (k = 0 ∨
        inStr (lowerStr (metadata.classNames.getD (metadata.evalClassIndices.getD i 0) ""))
          (lowerStr (bnames.getD k "")) = true) := by
  unfold summaryEmits
  simp only [List.mem_flatMap, List.mem_range, List.mem_filterMap]
  constructor
  · rintro ⟨a, ha, b, hb, hif⟩
    split at hif
    · exact absurd hif (by simp)
    · rename_i hcond
      have hik : a = i ∧ b = k := by
        have := Option.some.inj hif
        exact ⟨congrArg Prod.fst this, congrArg Prod.snd this⟩
      obtain ⟨rfl, rfl⟩ := hik
      refine ⟨ha, hb, ?_⟩
      by_cases hk : b = 0
      · exact Or.inl hk
      · right
        rcases not_and_or.mp hcond with h0 | hbool
        · exact absurd (Nat.pos_of_ne_zero hk) h0
        · simpa using hbool
  · rintro ⟨hi, hk, hcond⟩
    refine ⟨i, hi, k, hk, ?_⟩
    rcases hcond with rfl | htrue
    · simp
    · rw [if_neg]
      rintro ⟨_, hfalse⟩
      rw [htrue] at hfalse
      cases hfalse

/-- C3: `Summary` and `GenerateSummaries` emit an entry for eval-class
position `i` and breakdown index `k` exactly when `k = 0` or the lowercased
class name is a substring of the lowercased breakdown name; the `k = 0`
(overall) entry is emitted for every eval class and never skipped. -/
theorem summary_overall_never_skipped (metadata : Metadata) (bnames : List String)
    (i k : Nat) :
    ((i, k) ∈ summaryEmits metadata bnames ↔
      i < metadata.evalClassIndices.length ∧ k < bnames.length ∧
      (k = 0 ∨
        inStr (lowerStr (metadata.classNames.getD (metadata.evalClassIndices.getD i 0) ""))
          (lowerStr (bnames.getD k "")) = true)) ∧
    ((i, k) ∈ generateSummariesEmits metadata bnames ↔
      i < metadata.evalClassIndices.length ∧ k < bnames.length ∧
      (k = 0 ∨
        inStr (lowerStr (metadata.classNames.getD (metadata.evalClassIndices.getD i 0) ""))
          (lowerStr (bnames.getD k "")) = true)) ∧
    (i < metadata.evalClassIndices.length → 0 < bnames.length →
      (i, 0) ∈ summaryEmits metadata bnames ∧
      (i, 0) ∈ generateSummariesEmits metadata bnames) := by
  refine ⟨mem_summaryEmits_iff .., ?_, ?_⟩
  · rw [generateSummariesEmits_eq_summaryEmits]
    exact mem_summaryEmits_iff ..
  · intro hi hb
    constructor
    · exact (mem_summaryEmits_iff ..).mpr ⟨hi, hb, Or.inl rfl⟩
    · rw [generateSummariesEmits_eq_summaryEmits]
      exact (mem_summaryEmits_iff ..).mpr ⟨hi, hb, Or.inl rfl⟩

/-- Metadata for the C3 witness: eval classes `Vehicle` and `Pedestrian`. -/
def mdSum : Metadata :=
  { numClasses := 3, classNames := ["unknown", "Vehicle", "Pedestrian"],
    iouOverrides := [], numPRPoints := 2, evalClassIndices := [1, 2] }

/-- Breakdown names for the C3 witness: the overall one and a
vehicle-specific range breakdown. -/
def bnamesSum : List String := ["ONE_SHARD", "RANGE_TYPE_VEHICLE_[0, 30)"]

/-- Witness for C3: `Vehicle` (position 0) gets the extra vehicle breakdown
entry, `Pedestrian` (position 1) does not, and both get the overall
entry. -/
theorem summary_overall_never_skipped_witness :
    (0, 1) ∈ summaryEmits mdSum bnamesSum ∧
    (1, 1) ∉ summaryEmits mdSum bnamesSum ∧
    (1, 0) ∈ summaryEmits mdSum bnamesSum ∧
    (1, 0) ∈ generateSummariesEmits mdSum bnamesSum := by
  refine ⟨?_, ?_, ?_, ?_⟩
  · exact (summary_overall_never_skipped mdSum bnamesSum 0 1).1.mpr
      ⟨by decide, by decide, Or.inr (by decide)⟩
  · intro hmem
    have h := (summary_overall_never_skipped mdSum bnamesSum 1 1).1.mp hmem
    rcases h.2.2 with h0 | htrue
    · exact absurd h0 (by decide)
    · exact absurd htrue (by decide)
  · exact ((summary_overall_never_skipped mdSum bnamesSum 1 0).2.2
      (by decide) (by decide)).1
  · exact ((summary_overall_never_skipped mdSum bnamesSum 1 0).2.2
      (by decide) (by decide)).2

/-! ### C2: placeholder branch of `_BuildMetric` -/

/-- The effect of one dict assignment on the ordered key list. -/
def keyStep (ks : List String) (k : String) : List String :=
  if ks.any (fun x => x = k) then ks else ks ++ [k]

theorem map_fst_dictInsert {α : Type} (d : List (String × α)) (k : String) (v : α) :
    (dictInsert d k v).map Prod.fst = keyStep (d.map Prod.fst) k := by
  unfold dictInsert keyStep
  by_cases h : (d.any fun p => p.1 = k) = true
  · have h2 : ((d.map Prod.fst).any fun x => x = k) = true := by
      simpa [List.any_map, Function.comp] using h
    rw [if_pos h, if_pos h2, List.map_map]
    apply List.map_congr_left
    intro p _
    by_cases hp : p.1 = k <;> simp [hp, Function.comp]
  · have h2 : ¬ ((d.map Prod.fst).any fun x => x = k) = true := by
      simpa [List.any_map, Function.comp] using h
    rw [if_neg h, if_neg h2]
    simp

theorem mem_keyStep (ks : List String) (k key : String) :
    key ∈ keyStep ks k ↔ key ∈ ks ∨ key = k := by
  unfold keyStep
  split
  · rename_i h
    simp only [List.any_eq_true, decide_eq_true_eq] at h
    obtain ⟨x, hx, rfl⟩ := h
    constructor
    · exact Or.inl
    · rintro (hk | rfl) <;> assumption
  · simp

theorem map_fst_foldl_double {α γ : Type} (kf kg : γ → String) (vf vg : γ → α)
    (l : List γ) :
    ∀ d : List (String × α),
      ((l.foldl (fun d x => dictInsert (dictInsert d (kf x) (vf x)) (kg x) (vg x)) d).map
          Prod.fst) =
        l.foldl (fun ks x => keyStep (keyStep ks (kf x)) (kg x)) (d.map Prod.fst) := by
  induction l with
  | nil => intro d; rfl
  | cons x xs ih =>
    intro d
    rw [List.foldl_cons, List.foldl_cons, ih, map_fst_dictInsert, map_fst_dictInsert]

theorem foldl_enumFrom_snd {α σ : Type} (F : σ → α → σ) :
    ∀ (l : List α) (n : Nat) (s : σ),
      (List.enumFrom n l).foldl (fun acc p => F acc p.2) s = l.foldl F s
  | [], _, _ => rfl
  | a :: l, n, s => by
    rw [show List.enumFrom n (a :: l) = (n, a) :: List.enumFrom (n + 1) l from rfl,
      List.foldl_cons, List.foldl_cons]
    exact foldl_enumFrom_snd F l (n + 1) (F s a)

theorem mem_foldl_keyStep {γ : Type} (kf kg : γ → String) (l : List γ) :
    ∀ (ks : List String) (key : String),
      key ∈ l.foldl (fun ks x => keyStep (keyStep ks (kf x)) (kg x)) ks ↔
        key ∈ ks ∨ ∃ x ∈ l, key = kf x ∨ key = kg x := by
  induction l with
  | nil => simp
  | cons a l ih =>
    intro ks key
    rw [List.foldl_cons, ih, mem_keyStep, mem_keyStep]
    simp only [List.mem_cons]
    constructor
    · rintro (((h | h) | h) | ⟨x, hx, h⟩)
      · exact Or.inl h
      · exact Or.inr ⟨a, Or.inl rfl, Or.inl h⟩
      · exact Or.inr ⟨a, Or.inl rfl, Or.inr h⟩
      · exact Or.inr ⟨x, Or.inr hx, h⟩
    · rintro (h | ⟨x, rfl | hx, h⟩)
      · exact Or.inl (Or.inl (Or.inl h))
      · rcases h with h | h
        · exact Or.inl (Or.inl (Or.inr h))
        · exact Or.inl (Or.inr h)
      · exact Or.inr ⟨x, hx, h⟩

theorem values_dictInsert {α : Type} (P : α → Prop) (d : List (String × α))
    (k : String) (v : α) (hd : ∀ kv ∈ d, P kv.2) (hv : P v) :
    ∀ kv ∈ dictInsert d k v, P kv.2 := by
  unfold dictInsert
  split
  · intro kv hkv
    rw [List.mem_map] at hkv
    obtain ⟨p, hp, rfl⟩ := hkv
    by_cases hpk : p.1 = k
    · simpa [hpk] using hv
    · simpa [hpk] using hd p hp
  · intro kv hkv
    rcases List.mem_append.mp hkv with h | h
    · exact hd kv h
    · rw [List.mem_singleton] at h
      subst h
      exact hv

theorem values_foldl_double {α γ : Type} (P : α → Prop) (kf kg : γ → String)
    (vf vg : γ → α) (l : List γ) (hval : ∀ x ∈ l, P (vf x) ∧ P (vg x)) :
    ∀ d : List (String × α), (∀ kv ∈ d, P kv.2) →
      ∀ kv ∈ l.foldl (fun d x => dictInsert (dictInsert d (kf x) (vf x)) (kg x) (vg x)) d,
        P kv.2 := by
  induction l with
  | nil => intro d hd; exact hd
  | cons a l ih =>
    intro d hd
    rw [List.foldl_cons]
    refine ih (fun x hx => hval x (List.mem_cons_of_mem _ hx)) _ ?_
    refine values_dictInsert P _ _ _ ?_ (hval a (List.mem_cons_self ..)).2
    exact values_dictInsert P _ _ _ hd (hval a (List.mem_cons_self ..)).1

/-- C2: with `feed_data = None`, `_BuildMetric` returns scalars that are all
NaN and curves that are all-zero `[P, 2]` arrays, under exactly the same
key set as the populated-data branch:
`{ap, ap_ha_weighted} ∪ {ap_<name>, ap_ha_weighted_<name>}` for scalars and
`{pr, pr_ha_weighted} ∪ {pr_<name>, pr_ha_weighted_<name>}` for curves, for
every class id, matcher and config (breakdown name list and P). -/
theorem buildmetric_none_placeholders (breakdown_names : List String)
    (num_pr_points : Nat) (matcher : Nat → FeedData → MatcherOut) (classid : Nat) :
    (∀ kv ∈ (_BuildMetric breakdown_names num_pr_points matcher classid none).1,
      kv.2 = RVal.nan) ∧
    (∀ kv ∈ (_BuildMetric breakdown_names num_pr_points matcher classid none).2,
      kv.2 = List.replicate num_pr_points ((0 : ℚ), (0 : ℚ))) ∧
    (∀ key, key ∈ (_BuildMetric breakdown_names num_pr_points matcher classid none).1.map
        Prod.fst ↔
      key = "ap" ∨ key = "ap_ha_weighted" ∨
        ∃ m ∈ breakdown_names, key = "ap_" ++ m ∨ key = "ap_ha_weighted_" ++ m) ∧
    (∀ key, key ∈ (_BuildMetric breakdown_names num_pr_points matcher classid none).2.map
        Prod.fst ↔
      key = "pr" ∨ key = "pr_ha_weighted" ∨
        ∃ m ∈ breakdown_names, key = "pr_" ++ m ∨ key = "pr_ha_weighted_" ++ m) ∧
    (∀ fd,
      (_BuildMetric breakdown_names num_pr_points matcher classid (some fd)).1.map
          Prod.fst =
        (_BuildMetric breakdown_names num_pr_points matcher classid none).1.map
          Prod.fst ∧
      (_BuildMetric breakdown_names num_pr_points matcher classid (some fd)).2.map
          Prod.fst =
        (_BuildMetric breakdown_names num_pr_points matcher classid none).2.map
          Prod.fst) := by
  refine ⟨?_, ?_, ?_, ?_, ?_⟩
  · rw [show (_BuildMetric breakdown_names num_pr_points matcher classid none).1 =
        breakdown_names.foldl (fun d metric =>
          dictInsert (dictInsert d ("ap_" ++ metric) RVal.nan)
            ("ap_ha_weighted_" ++ metric) RVal.nan)
          [("ap", RVal.nan), ("ap_ha_weighted", RVal.nan)] from rfl]
    refine values_foldl_double (fun v => v = RVal.nan) _ _ _ _ _
      (fun x _ => ⟨rfl, rfl⟩) _ ?_
    intro kv hkv
    simp only [List.mem_cons, List.mem_singleton, List.not_mem_nil, or_false] at hkv
    rcases hkv with rfl | rfl <;> rfl
  · rw [show (_BuildMetric breakdown_names num_pr_points matcher classid none).2 =
        breakdown_names.foldl (fun d metric =>
          dictInsert
            (dictInsert d ("pr_" ++ metric)
              (List.replicate num_pr_points ((0 : ℚ), (0 : ℚ))))
            ("pr_ha_weighted_" ++ metric)
            (List.replicate num_pr_points ((0 : ℚ), (0 : ℚ))))
          [("pr", List.replicate num_pr_points ((0 : ℚ), (0 : ℚ))),
           ("pr_ha_weighted", List.replicate num_pr_points ((0 : ℚ), (0 : ℚ)))] from
        rfl]
    refine values_foldl_double
      (fun v => v = List.replicate num_pr_points ((0 : ℚ), (0 : ℚ))) _ _ _ _ _
      (fun x _ => ⟨rfl, rfl⟩) _ ?_
    intro kv hkv
    simp only [List.mem_cons, List.mem_singleton, List.not_mem_nil, or_false] at hkv
    rcases hkv with rfl | rfl <;> rfl
  · intro key
    rw [show (_BuildMetric breakdown_names num_pr_points matcher classid none).1 =
        breakdown_names.foldl (fun d metric =>
          dictInsert (dictInsert d ("ap_" ++ metric) RVal.nan)
            ("ap_ha_weighted_" ++ metric) RVal.nan)
          [("ap", RVal.nan), ("ap_ha_weighted", RVal.nan)] from rfl,
      map_fst_foldl_double, mem_foldl_keyStep]
    simp only [List.map_cons, List.map_nil, List.mem_cons, List.not_mem_nil, or_false]
    exact or_assoc
  · intro key
    rw [show (_BuildMetric breakdown_names num_pr_points matcher classid none).2 =
        breakdown_names.foldl (fun d metric =>
          dictInsert
            (dictInsert d ("pr_" ++ metric)
              (List.replicate num_pr_points ((0 : ℚ), (0 : ℚ))))
            ("pr_ha_weighted_" ++ metric)
            (List.replicate num_pr_points ((0 : ℚ), (0 : ℚ))))
          [("pr", List.replicate num_pr_points ((0 : ℚ), (0 : ℚ))),
           ("pr_ha_weighted", List.replicate num_pr_points ((0 : ℚ), (0 : ℚ)))] from rfl,
      map_fst_foldl_double, mem_foldl_keyStep]
    simp only [List.map_cons, List.map_nil, List.mem_cons, List.not_mem_nil, or_false]
    exact or_assoc
  · intro fd
    constructor
    · rw [show (_BuildMetric breakdown_names num_pr_points matcher classid (some fd)).1 =
          breakdown_names.enum.foldl (fun d p =>
            dictInsert (dictInsert d ("ap_" ++ p.2) ((matcher classid fd).ap p.1))
              ("ap_ha_weighted_" ++ p.2) ((matcher classid fd).ap_ha p.1))
            [("ap", (matcher classid fd).ap 0),
             ("ap_ha_weighted", (matcher classid fd).ap_ha 0)] from rfl,
        show (_BuildMetric breakdown_names num_pr_points matcher classid none).1 =
          breakdown_names.foldl (fun d metric =>
            dictInsert (dictInsert d ("ap_" ++ metric) RVal.nan)
              ("ap_ha_weighted_" ++ metric) RVal.nan)
            [("ap", RVal.nan), ("ap_ha_weighted", RVal.nan)] from rfl,
        map_fst_foldl_double, map_fst_foldl_double, List.enum,
        foldl_enumFrom_snd (fun ks m => keyStep (keyStep ks ("ap_" ++ m))
          ("ap_ha_weighted_" ++ m))]
      rfl
    · rw [show (_BuildMetric breakdown_names num_pr_points matcher classid (some fd)).2 =
          breakdown_names.enum.foldl (fun d p =>
            dictInsert (dictInsert d ("pr_" ++ p.2) ((matcher classid fd).pr p.1))
              ("pr_ha_weighted_" ++ p.2) ((matcher classid fd).pr_ha p.1))
            [("pr", (matcher classid fd).pr 0),
             ("pr_ha_weighted", (matcher classid fd).pr_ha 0)] from rfl,
        show (_BuildMetric breakdown_names num_pr_points matcher classid none).2 =
          breakdown_names.foldl (fun d metric =>
            dictInsert
              (dictInsert d ("pr_" ++ metric)
                (List.replicate num_pr_points ((0 : ℚ), (0 : ℚ))))
              ("pr_ha_weighted_" ++ metric)
              (List.replicate num_pr_points ((0 : ℚ), (0 : ℚ))))
            [("pr", List.replicate num_pr_points ((0 : ℚ), (0 : ℚ))),
             ("pr_ha_weighted", List.replicate num_pr_points ((0 : ℚ), (0 : ℚ)))] from
          rfl,
        map_fst_foldl_double, map_fst_foldl_double, List.enum,
        foldl_enumFrom_snd (fun ks m => keyStep (keyStep ks ("pr_" ++ m))
          ("pr_ha_weighted_" ++ m))]
      rfl

/-- A matcher returning zeros everywhere. -/
def matcherZero : Nat → FeedData → MatcherOut := fun _ _ =>
  { ap := fun _ => RVal.fin 0, ap_ha := fun _ => RVal.fin 0,
    pr := fun _ => [], pr_ha := fun _ => [] }

/-- A populated feed for the populated branch of `_BuildMetric`. -/
def fdW : FeedData :=
  { iou_threshold := (7 : ℚ) / 10,
    gt := { imgid := [0], bbox := [[1, 2, 3, 4, 5, 6, 7]], speed := [[0, 0]] },
    pd := { imgid := [0], bbox := [[1, 2, 3, 4, 5, 6, 7]], score := [1] } }

/-- Witness for C2 with the breakdown list `["ONE_SHARD"]` and `P = 2`:
the placeholder key sets contain the per-breakdown keys, contain nothing
else, and coincide with the populated branch's key sets. -/
theorem buildmetric_none_placeholders_witness :
    "ap_ONE_SHARD" ∈ (_BuildMetric ["ONE_SHARD"] 2 matcherZero 1 none).1.map Prod.fst ∧
    "ap_RANGE" ∉ (_BuildMetric ["ONE_SHARD"] 2 matcherZero 1 none).1.map Prod.fst ∧
    (_BuildMetric ["ONE_SHARD"] 2 matcherZero 1 (some fdW)).1.map Prod.fst =
      (_BuildMetric ["ONE_SHARD"] 2 matcherZero 1 none).1.map Prod.fst ∧
    (_BuildMetric ["ONE_SHARD"] 2 matcherZero 1 (some fdW)).2.map Prod.fst =
      (_BuildMetric ["ONE_SHARD"] 2 matcherZero 1 none).2.map Prod.fst := by
  have h := buildmetric_none_placeholders ["ONE_SHARD"] 2 matcherZero 1
  refine ⟨?_, ?_, (h.2.2.2.2 fdW).1, (h.2.2.2.2 fdW).2⟩
  · exact (h.2.2.1 "ap_ONE_SHARD").mpr
      (Or.inr (Or.inr ⟨"ONE_SHARD", by simp, Or.inl (by decide)⟩))
  · intro hmem
    rcases (h.2.2.1 "ap_RANGE").mp hmem with h2 | h2 | ⟨m, hm, h2 | h2⟩
    · exact absurd h2 (by decide)
    · exact absurd h2 (by decide)
    · rw [List.mem_singleton.mp hm] at h2
      exact absurd h2 (by decide)
    · rw [List.mem_singleton.mp hm] at h2
      exact absurd h2 (by decide)

end WaymoApMetric
